import Mathlib

/-!
Verification of the nsdigup domain-health scanner.

This file gives a shallow embedding, in Lean 4, of the pure decision logic of
the scanner: the weak-cipher classifier, the certificate-status derivation,
the SPF/DMARC email-security check, the in-memory TTL cache, the manual
HTTPS-redirect follower, the per-group probe-collection loops (identity and
findings groups) and the root scan orchestrator.  Network effects are
abstracted as explicit inputs (probe outcomes, an HTTP oracle, completion
orders); everything else is translated line by line from the Go source.
-/

namespace NsDigUp

/-- Embeds Go strings.Contains: pat occurs as a contiguous substring of s. -/
def containsSub (s pat : String) : Bool :=
  decide (pat.toList <:+: s.toList)

/-- Embeds Go strings.HasPrefix: s starts with pre. -/
def startsWithStr (s pre : String) : Bool :=
  decide (pre.toList <+: s.toList)

/-! ## Weak-cipher classification (scanner TLS analysis, weakCipherPatterns / isWeakCipher) -/

/-- The fixed weak-cipher pattern list from the TLS analysis source. -/
def weakCipherPatterns : List String :=
  ["RC4", "DES_CBC", "3DES", "MD5", "anon", "EXPORT", "NULL", "TLS_RSA_WITH_"]

/-- Embeds isWeakCipher: a cipher-suite name is weak when any fixed pattern
occurs in it as a substring. -/
def isWeakCipher (cipherName : String) : Bool :=
  weakCipherPatterns.any (fun pat => containsSub cipherName pat)

/-- C4: weak-cipher classification is a pure substring match: a cipher-suite
name is classified weak if and only if it contains RC4, 3DES (or DES_CBC),
MD5, anon, EXPORT, NULL, or the exchange prefix TLS_RSA_WITH_; a name
containing none of these is not classified weak. -/
theorem isWeakCipher_iff_weak_pattern (n : String) :
    isWeakCipher n = true ↔
      (containsSub n "RC4" = true ∨ containsSub n "3DES" = true ∨
       containsSub n "DES_CBC" = true ∨ containsSub n "MD5" = true ∨
       containsSub n "anon" = true ∨ containsSub n "EXPORT" = true ∨
       containsSub n "NULL" = true ∨ containsSub n "TLS_RSA_WITH_" = true) := by
  simp only [isWeakCipher, weakCipherPatterns, List.any_cons, List.any_nil,
    Bool.or_eq_true, Bool.false_eq_true, or_false]
  tauto

/-! ## Certificate status derivation (GetCertDetails, tools/certs.go) -/

/-- Nanoseconds per hour, matching Go time.Duration units. -/
def nanosPerHour : Int := 3600 * 1000000000

/-- The 30-day window 30 * 24 * time.Hour from the status derivation. -/
def thirtyDayWindow : Int := 30 * 24 * nanosPerHour

/-- Embeds the status derivation of GetCertDetails: start from Active,
switch to Expired when now is strictly after NotAfter, otherwise to
Expiring Soon when now plus thirty days is strictly after NotAfter.
Instants are nanosecond counts; both clock reads are modelled as the same
instant now. -/
def getCertStatus (now notAfter : Int) : String :=
  if notAfter < now then "Expired"
  else if notAfter < now + thirtyDayWindow then "Expiring Soon"
  else "Active"

/-- C2 counterexample: a certificate expiring exactly 30 days from now is
classified Active (and hence not Expiring Soon) — the 30-day threshold is
strict, not inclusive. -/
theorem getCertStatus_thirty_day_boundary_is_active :
    getCertStatus 0 thirtyDayWindow = "Active" := by
  decide

/-- C2 (amended): the status is Expired exactly when the expiration instant
is strictly in the past, Expiring Soon exactly when the certificate is not
expired and expires strictly within 30 days of now, and Active exactly when
it expires 30 or more days from now; the boundary case of an expiration
exactly 30 days from now classifies as Active (strict threshold). -/
theorem getCertStatus_spec (now notAfter : Int) :
    (getCertStatus now notAfter = "Expired" ↔ notAfter < now) ∧
    (getCertStatus now notAfter = "Expiring Soon" ↔
      (now ≤ notAfter ∧ notAfter < now + thirtyDayWindow)) ∧
    (getCertStatus now notAfter = "Active" ↔ now + thirtyDayWindow ≤ notAfter) := by
  have hW : (0:Int) < thirtyDayWindow := by decide
  have hES : "Expired" ≠ "Expiring Soon" := by decide
  have hEA : "Expired" ≠ "Active" := by decide
  have hSA : "Expiring Soon" ≠ "Active" := by decide
  unfold getCertStatus
  by_cases h1 : notAfter < now
  · rw [if_pos h1]
    exact ⟨⟨fun _ => h1, fun _ => rfl⟩,
      ⟨fun h => absurd h hES, fun h => absurd h1 (by omega)⟩,
      ⟨fun h => absurd h hEA, fun h => absurd h1 (by omega)⟩⟩
  · by_cases h2 : notAfter < now + thirtyDayWindow
    · rw [if_neg h1, if_pos h2]
      exact ⟨⟨fun h => absurd h (Ne.symm hES), fun h => absurd h h1⟩,
        ⟨fun _ => ⟨not_lt.mp h1, h2⟩, fun _ => rfl⟩,
        ⟨fun h => absurd h hSA, fun h => absurd h2 (by omega)⟩⟩
    · rw [if_neg h1, if_neg h2]
      exact ⟨⟨fun h => absurd h (Ne.symm hEA), fun h => absurd h h1⟩,
        ⟨fun h => absurd h (Ne.symm hSA), fun h => absurd h.2 h2⟩,
        ⟨fun _ => not_lt.mp h2, fun _ => rfl⟩⟩

/-! ## Email security check (CheckEmailSecurity, tools/security.go) -/

/-- models.EmailSec: SPF record text, DMARC policy string, weak flag. -/
structure EmailSec where
  dmarc : String := ""
  spf : String := ""
  isWeak : Bool := false
deriving DecidableEq, Repr

/-- First block of CheckEmailSecurity: scan the TXT records of the domain
for the first one starting with v=spf1, record it as the SPF record and
flag weakness when it contains a permissive all qualifier. -/
def spfStage (spfTxts : List String) : EmailSec :=
  let e0 : EmailSec := {}
  match spfTxts.find? (fun txt => startsWithStr txt "v=spf1") with
  | some txt =>
      { e0 with
        spf := txt,
        isWeak := e0.isWeak || (containsSub txt "+all" || containsSub txt "?all") }
  | none => e0

/-- Second block of CheckEmailSecurity: scan the TXT records of the _dmarc
subdomain for the first one starting with v=DMARC1 and classify the policy
by substring match, flagging weakness for p=none. -/
def dmarcStage (dmarcTxts : List String) (e : EmailSec) : EmailSec :=
  match dmarcTxts.find? (fun txt => startsWithStr txt "v=DMARC1") with
  | some txt =>
      if containsSub txt "p=none" then { e with dmarc := "none", isWeak := true }
      else if containsSub txt "p=quarantine" then { e with dmarc := "quarantine" }
      else if containsSub txt "p=reject" then { e with dmarc := "reject" }
      else e
  | none => e

/-- Final block of CheckEmailSecurity: an empty SPF record flags weakness;
an empty or none DMARC policy is normalized to none and flags weakness. -/
def normalizeStage (e : EmailSec) : EmailSec :=
  let e3 := if e.spf = "" then { e with isWeak := true } else e
  if e3.dmarc = "" || e3.dmarc = "none" then
    { e3 with dmarc := if e3.dmarc = "" then "none" else e3.dmarc, isWeak := true }
  else e3

/-- Embeds CheckEmailSecurity as the sequence of its three blocks. -/
def checkEmailSecurity (spfTxts dmarcTxts : List String) : EmailSec :=
  normalizeStage (dmarcStage dmarcTxts (spfStage spfTxts))

lemma spfStage_dmarc (s : List String) : (spfStage s).dmarc = "" := by
  unfold spfStage
  cases s.find? (fun txt => startsWithStr txt "v=spf1") <;> simp

lemma dmarcStage_spf (d : List String) (e : EmailSec) : (dmarcStage d e).spf = e.spf := by
  unfold dmarcStage
  cases d.find? (fun txt => startsWithStr txt "v=DMARC1") <;> simp <;> split_ifs <;> simp

lemma dmarcStage_isWeak_true (d : List String) (e : EmailSec) (h : e.isWeak = true) :
    (dmarcStage d e).isWeak = true := by
  unfold dmarcStage
  cases d.find? (fun txt => startsWithStr txt "v=DMARC1") <;> simp [h] <;>
    split_ifs <;> simp [h]

lemma normalizeStage_isWeak_true (e : EmailSec) (h : e.isWeak = true) :
    (normalizeStage e).isWeak = true := by
  simp only [normalizeStage]
  split_ifs <;> simp [h]

lemma normalizeStage_spf_empty (e : EmailSec) (h : e.spf = "") :
    (normalizeStage e).isWeak = true := by
  simp only [normalizeStage, h, if_pos]
  split_ifs <;> simp

lemma normalizeStage_dmarc_empty (e : EmailSec) (h : e.dmarc = "") :
    (normalizeStage e).isWeak = true := by
  simp only [normalizeStage]
  split_ifs <;> simp_all

lemma normalizeStage_dmarc (e : EmailSec) :
    (normalizeStage e).dmarc = if e.dmarc = "" then "none" else e.dmarc := by
  simp only [normalizeStage]
  by_cases h1 : e.spf = "" <;> by_cases h2 : e.dmarc = "" <;>
    by_cases h3 : e.dmarc = "none" <;> simp [h1, h2, h3]

lemma startsWithStr_spf_ne_empty (s : String) (h : startsWithStr s "v=spf1" = true) :
    s ≠ "" := by
  intro he
  subst he
  exact absurd h (by decide)

/-- C3: the email-security check flags weakness when the SPF record found
contains a permissive all qualifier (+all or ?all), when no SPF record is
found, when no DMARC record is found, or when the DMARC record found
declares policy none; and it reports no weakness when the DMARC record
found declares p=reject (and not p=none) while the SPF record found is
non-permissive. -/
theorem checkEmailSecurity_weak_rules (spfTxts dmarcTxts : List String) :
    (∀ txt, spfTxts.find? (fun t => startsWithStr t "v=spf1") = some txt →
      (containsSub txt "+all" = true ∨ containsSub txt "?all" = true) →
      (checkEmailSecurity spfTxts dmarcTxts).isWeak = true) ∧
    (spfTxts.find? (fun t => startsWithStr t "v=spf1") = none →
      (checkEmailSecurity spfTxts dmarcTxts).isWeak = true) ∧
    (dmarcTxts.find? (fun t => startsWithStr t "v=DMARC1") = none →
      (checkEmailSecurity spfTxts dmarcTxts).isWeak = true) ∧
    (∀ txt, dmarcTxts.find? (fun t => startsWithStr t "v=DMARC1") = some txt →
      containsSub txt "p=none" = true →
      (checkEmailSecurity spfTxts dmarcTxts).isWeak = true) ∧
    (∀ stxt dtxt, spfTxts.find? (fun t => startsWithStr t "v=spf1") = some stxt →
      containsSub stxt "+all" = false → containsSub stxt "?all" = false →
      dmarcTxts.find? (fun t => startsWithStr t "v=DMARC1") = some dtxt →
      containsSub dtxt "p=reject" = true → containsSub dtxt "p=none" = false →
      (checkEmailSecurity spfTxts dmarcTxts).isWeak = false) := by
  refine ⟨?_, ?_, ?_, ?_, ?_⟩
  · intro txt hs hw
    apply normalizeStage_isWeak_true
    apply dmarcStage_isWeak_true
    unfold spfStage
    rw [hs]
    rcases hw with h | h <;> simp [h]
  · intro hs
    apply normalizeStage_spf_empty
    rw [dmarcStage_spf]
    unfold spfStage
    rw [hs]
  · intro hd
    apply normalizeStage_dmarc_empty
    unfold dmarcStage
    rw [hd]
    exact spfStage_dmarc spfTxts
  · intro txt hd hn
    apply normalizeStage_isWeak_true
    unfold dmarcStage
    rw [hd]
    simp [hn]
  · intro stxt dtxt hs hplus hquery hd hrej hnone
    have hsw : startsWithStr stxt "v=spf1" = true := by
      have hp := List.find?_some hs
      simpa using hp
    have hne : stxt ≠ "" := startsWithStr_spf_ne_empty stxt hsw
    have he1 : spfStage spfTxts = { spf := stxt, isWeak := false } := by
      unfold spfStage
      rw [hs]
      simp [hplus, hquery]
    have d1 : ("quarantine" : String) ≠ "" := by decide
    have d2 : ("quarantine" : String) ≠ "none" := by decide
    have d3 : ("reject" : String) ≠ "" := by decide
    have d4 : ("reject" : String) ≠ "none" := by decide
    rw [checkEmailSecurity, he1]
    unfold dmarcStage normalizeStage
    rw [hd]
    by_cases hq : containsSub dtxt "p=quarantine" = true <;>
      simp [hnone, hq, hrej, hne, d1, d2, d3, d4]

/-- C3 witness: a concrete non-permissive SPF record together with a
p=reject DMARC record yields no weakness flag. -/
theorem checkEmailSecurity_weak_rules_witness :
    (checkEmailSecurity ["v=spf1 -all"] ["v=DMARC1; p=reject"]).isWeak = false :=
  (checkEmailSecurity_weak_rules ["v=spf1 -all"] ["v=DMARC1; p=reject"]).2.2.2.2
    "v=spf1 -all" "v=DMARC1; p=reject" (by decide) (by decide) (by decide)
    (by decide) (by decide) (by decide)

/-- C9: after the email-security check the DMARC policy field is always one
of none, quarantine or reject; an absent DMARC record yields none, and a
missing DMARC record set produces exactly the same output as one that
explicitly publishes p=none. -/
theorem checkEmailSecurity_dmarc_normalized (spfTxts dmarcTxts : List String) :
    ((checkEmailSecurity spfTxts dmarcTxts).dmarc = "none" ∨
     (checkEmailSecurity spfTxts dmarcTxts).dmarc = "quarantine" ∨
     (checkEmailSecurity spfTxts dmarcTxts).dmarc = "reject") ∧
    (dmarcTxts.find? (fun t => startsWithStr t "v=DMARC1") = none →
      (checkEmailSecurity spfTxts dmarcTxts).dmarc = "none") ∧
    checkEmailSecurity spfTxts [] = checkEmailSecurity spfTxts ["v=DMARC1; p=none"] := by
  refine ⟨?_, ?_, ?_⟩
  · rw [checkEmailSecurity, normalizeStage_dmarc]
    have hd : (dmarcStage dmarcTxts (spfStage spfTxts)).dmarc = (spfStage spfTxts).dmarc ∨
        (dmarcStage dmarcTxts (spfStage spfTxts)).dmarc = "none" ∨
        (dmarcStage dmarcTxts (spfStage spfTxts)).dmarc = "quarantine" ∨
        (dmarcStage dmarcTxts (spfStage spfTxts)).dmarc = "reject" := by
      unfold dmarcStage
      cases dmarcTxts.find? (fun txt => startsWithStr txt "v=DMARC1") <;> simp <;>
        split_ifs <;> simp
    rw [spfStage_dmarc] at hd
    rcases hd with h | h | h | h <;> simp [h]
  · intro hd
    rw [checkEmailSecurity, normalizeStage_dmarc]
    have : (dmarcStage dmarcTxts (spfStage spfTxts)).dmarc = "" := by
      unfold dmarcStage
      rw [hd]
      exact spfStage_dmarc spfTxts
    simp [this]
  · rw [checkEmailSecurity, checkEmailSecurity]
    have h1 : dmarcStage [] (spfStage spfTxts) = spfStage spfTxts := by
      unfold dmarcStage
      rfl
    have h2 : dmarcStage ["v=DMARC1; p=none"] (spfStage spfTxts) =
        { spfStage spfTxts with dmarc := "none", isWeak := true } := by
      have hsw : startsWithStr "v=DMARC1; p=none" "v=DMARC1" = true := by decide
      have hpn : containsSub "v=DMARC1; p=none" "p=none" = true := by decide
      unfold dmarcStage
      simp [List.find?, hsw, hpn]
    rw [h1, h2]
    unfold normalizeStage
    by_cases hspf : (spfStage spfTxts).spf = "" <;>
      simp [hspf, spfStage_dmarc]

/-- C9 witness: with no TXT records at all the DMARC policy is reported as
none. -/
theorem checkEmailSecurity_dmarc_normalized_witness :
    (checkEmailSecurity [] []).dmarc = "none" :=
  (checkEmailSecurity_dmarc_normalized [] []).2.1 (by decide)

/-! ## Report data model (pkg/models) -/

/-- DNSSEC probe result (tools.DNSSECResult). -/
structure DNSSECResult where
  enabled : Bool := false
  valid : Bool := false
  error : String := ""
deriving DecidableEq, Repr

/-- CAA probe result (tools.CAAResult). -/
structure CAAResult where
  records : List String := []
  missing : Bool := false
deriving DecidableEq, Repr

/-- WHOIS probe result (tools.WHOISResult); the Error field is the Go error
value, none meaning nil. -/
structure WHOISResult where
  registrar : String := ""
  owner : String := ""
  expiresDays : Int := 0
  error : Option String := none
deriving DecidableEq, Repr

/-- models.Identity: the identity section of a report. -/
structure Identity where
  ip : String := ""
  registrar : String := ""
  owner : String := ""
  expiresDays : Int := 0
  nameservers : List String := []
  dnssecEnabled : Bool := false
  dnssecValid : Bool := false
  dnssecError : String := ""
  caaRecords : List String := []
  caaMissing : Bool := false
deriving DecidableEq, Repr

/-- models.Certificates: the certificate section of a report. -/
structure Certificates where
  issuer : String := ""
  commonName : String := ""
  expiresAt : Int := 0
  expiresInDays : Int := 0
  status : String := ""
  isWildcard : Bool := false
  isSelfSigned : Bool := false
  tlsVersions : List String := []
  weakTLSVersions : List String := []
  cipherSuites : List String := []
  weakCipherSuites : List String := []
deriving DecidableEq, Repr

/-- models.HTTPSRedirectCheck: the HTTPS-redirect sub-record. -/
structure HTTPSRedirectCheck where
  enabled : Bool := false
  statusCode : Nat := 0
  finalURL : String := ""
  redirectLoop : Bool := false
  error : String := ""
deriving DecidableEq, Repr

/-- models.HTTPFindings. -/
structure HTTPFindings where
  headers : List String := []
  httpsRedirect : HTTPSRedirectCheck := {}
deriving DecidableEq, Repr

/-- models.EmailFindings. -/
structure EmailFindings where
  emailSec : EmailSec := {}
deriving DecidableEq, Repr

/-- models.Findings: the findings section of a report. -/
structure Findings where
  http : HTTPFindings := {}
  email : EmailFindings := {}
deriving DecidableEq, Repr

/-- models.Report: the aggregate result of one scan. -/
structure Report where
  target : String := ""
  timestamp : Int := 0
  identity : Identity := {}
  certificates : Certificates := {}
  findings : Findings := {}
deriving DecidableEq, Repr

/-! ## In-memory TTL cache (internal/cache/memory.go) -/

/-- cacheEntry: a stored report with its store time and the TTL captured at
Set time.  Durations and instants are nanosecond counts. -/
structure CacheEntry where
  report : Report
  timestamp : Int
  ttl : Int
deriving DecidableEq, Repr

/-- Embeds cacheEntry.isExpired: a zero TTL never expires, otherwise the
entry is expired once its age strictly exceeds the TTL. -/
def CacheEntry.isExpired (e : CacheEntry) (now : Int) : Bool :=
  if e.ttl = 0 then false
  else decide (now - e.timestamp > e.ttl)

/-- MemoryStore: the entry map plus the configured TTL. -/
structure MemoryStore where
  entries : String → Option CacheEntry
  ttl : Int

/-- Embeds NewMemoryStore (the background sweeper is not modelled; Get
deletes expired entries on its own, as in the source). -/
def newMemoryStore (ttl : Int) : MemoryStore :=
  { entries := fun _ => none, ttl := ttl }

/-- Embeds MemoryStore.Get: returns the report and found flag, plus the
store state after the call (Get deletes an expired entry). -/
def MemoryStore.get (m : MemoryStore) (domain : String) (now : Int) :
    Option Report × Bool × MemoryStore :=
  match m.entries domain with
  | none => (none, false, m)
  | some e =>
      if e.isExpired now then
        (none, false, { m with entries := fun d => if d = domain then none else m.entries d })
      else (some e.report, true, m)

/-- Embeds MemoryStore.Set: stores the report at the current instant with
the store's configured TTL. -/
def MemoryStore.set (m : MemoryStore) (domain : String) (r : Report) (now : Int) : MemoryStore :=
  { m with entries := fun d => if d = domain then some ⟨r, now, m.ttl⟩ else m.entries d }

/-- Embeds MemoryStore.Delete. -/
def MemoryStore.delete (m : MemoryStore) (domain : String) : MemoryStore :=
  { m with entries := fun d => if d = domain then none else m.entries d }

/-- Embeds MemoryStore.Clear. -/
def MemoryStore.clear (m : MemoryStore) : MemoryStore :=
  { m with entries := fun _ => none }

/-- A cache operation, for reasoning about operation sequences. -/
inductive CacheOp where
  | get (domain : String)
  | set (domain : String) (r : Report)
  | delete (domain : String)
  | clear
deriving DecidableEq

/-- Whether an operation writes (removes or replaces) the entry of the given
domain.  Get is read-only for other domains except its own expiry deletion,
handled separately. -/
def CacheOp.writes : CacheOp → String → Bool
  | .get _, _ => false
  | .set d2 _, d => d2 == d
  | .delete d2, d => d2 == d
  | .clear, _ => true

/-- Run one timed operation against the store. -/
def applyOp (m : MemoryStore) : CacheOp × Int → MemoryStore
  | (.get d, t) => (m.get d t).2.2
  | (.set d r, t) => m.set d r t
  | (.delete d, _) => m.delete d
  | (.clear, _) => m.clear

/-- Run a timed operation sequence against the store. -/
def runOps (m : MemoryStore) (ops : List (CacheOp × Int)) : MemoryStore :=
  ops.foldl applyOp m

lemma runOps_preserves_zero_ttl_entry (d : String) (r : Report) (t0 : Int) :
    ∀ (ops : List (CacheOp × Int)) (m : MemoryStore),
      m.entries d = some ⟨r, t0, 0⟩ →
      (∀ p ∈ ops, CacheOp.writes p.1 d = false) →
      (runOps m ops).entries d = some ⟨r, t0, 0⟩ := by
  intro ops
  induction ops with
  | nil => intro m hm _; exact hm
  | cons p rest ih =>
      intro m hm hw
      have hp : CacheOp.writes p.1 d = false := hw p (List.mem_cons_self p rest)
      have hrest : ∀ q ∈ rest, CacheOp.writes q.1 d = false :=
        fun q hq => hw q (List.mem_cons_of_mem p hq)
      rw [runOps, List.foldl_cons]
      apply ih _ _ hrest
      rcases p with ⟨op, t⟩
      cases op with
      | get d2 =>
          show ((applyOp m (.get d2, t)).entries d) = _
          rw [applyOp, MemoryStore.get]
          by_cases hd : d2 = d
          · subst hd
            have hexp0 : CacheEntry.isExpired ⟨r, t0, 0⟩ t = false := by
              rw [CacheEntry.isExpired]
              simp
            simp [hm, hexp0]
          · cases he : m.entries d2 with
            | none => simp [he, hm]
            | some e =>
                by_cases hex : e.isExpired t
                · have hdd : ¬ d = d2 := fun h => hd h.symm
                  simp [he, hex, hm, hdd]
                · simp [he, hex, hm]
      | set d2 r2 =>
          have hne : d2 ≠ d := by
            intro h
            rw [CacheOp.writes] at hp
            simp [h] at hp
          show ((m.set d2 r2 t).entries d) = _
          rw [MemoryStore.set]
          simp only [if_neg (fun h : d = d2 => hne h.symm)]
          exact hm
      | delete d2 =>
          have hne : d2 ≠ d := by
            intro h
            rw [CacheOp.writes] at hp
            simp [h] at hp
          show ((m.delete d2).entries d) = _
          rw [MemoryStore.delete]
          simp only [if_neg (fun h : d = d2 => hne h.symm)]
          exact hm
      | clear =>
          rw [CacheOp.writes] at hp
          exact absurd hp (by simp)

/-- C7: with a TTL of zero a stored entry never expires — after Set, any
later Get of that domain returns the stored report with found true no
matter how much time has passed or which non-writing operations ran in
between; with a positive TTL, Get reports found false once the entry's age
strictly exceeds the TTL. -/
theorem memoryStore_ttl_expiry :
    (∀ (m : MemoryStore) (d : String) (r : Report) (t0 : Int)
       (ops : List (CacheOp × Int)) (now : Int),
       m.ttl = 0 →
       (∀ p ∈ ops, CacheOp.writes p.1 d = false) →
       ((runOps (m.set d r t0) ops).get d now).1 = some r ∧
       ((runOps (m.set d r t0) ops).get d now).2.1 = true) ∧
    (∀ (m : MemoryStore) (d : String) (r : Report) (t0 now : Int),
       0 < m.ttl → m.ttl < now - t0 →
       ((m.set d r t0).get d now).2.1 = false) := by
  constructor
  · intro m d r t0 ops now httl hops
    have hset : (m.set d r t0).entries d = some ⟨r, t0, 0⟩ := by
      rw [MemoryStore.set]
      simp [httl]
    have hent := runOps_preserves_zero_ttl_entry d r t0 ops (m.set d r t0) hset hops
    have hexp : CacheEntry.isExpired ⟨r, t0, 0⟩ now = false := by
      rw [CacheEntry.isExpired]
      simp
    rw [MemoryStore.get]
    simp [hent, hexp]
  · intro m d r t0 now hpos hage
    have hexp : CacheEntry.isExpired ⟨r, t0, m.ttl⟩ now = true := by
      rw [CacheEntry.isExpired]
      simp only [if_neg (by omega : ¬ m.ttl = 0)]
      simp only [decide_eq_true_eq]
      omega
    rw [MemoryStore.get, MemoryStore.set]
    simp [hexp]

/-- C7 witness: with TTL zero, a report stored at time 0 is still found far
in the future; with TTL 100, it is gone at age 101. -/
theorem memoryStore_ttl_expiry_witness :
    ((runOps ((newMemoryStore 0).set "example.com" {} 0) []).get "example.com"
        1000000000000000000).2.1 = true ∧
    (((newMemoryStore 100).set "example.com" {} 0).get "example.com" 101).2.1 = false :=
  ⟨(memoryStore_ttl_expiry.1 (newMemoryStore 0) "example.com" {} 0 []
      1000000000000000000 rfl (by simp)).2,
   memoryStore_ttl_expiry.2 (newMemoryStore 100) "example.com" {} 0 101
     (by decide) (by decide)⟩

/-! ## HTTPS redirect check (CheckHTTPSRedirect, tools/http.go) -/

/-- A URL as the redirect follower observes it: its scheme and its full
string form (the form used as the visited-set key and as FinalURL).
Location headers are modelled as already-resolved absolute URLs. -/
structure GoURL where
  scheme : String
  urlStr : String
deriving DecidableEq, Repr

/-- An HTTP response: status code and optional Location header. -/
structure HTTPResponse where
  statusCode : Nat
  location : Option GoURL := none
deriving DecidableEq, Repr

/-- Outcome of one client.Do call: transport failure or a response. -/
inductive FetchOutcome where
  | fail (msg : String)
  | resp (r : HTTPResponse)
deriving DecidableEq, Repr

/-- tools.RedirectResult. -/
structure RedirectResult where
  enabled : Bool := false
  statusCode : Nat := 0
  finalURL : String := ""
  redirectLoop : Bool := false
  error : String := ""
deriving DecidableEq, Repr

/-- Embeds the manual redirect-following loop of CheckHTTPSRedirect.  The
network is an oracle from URL strings to fetch outcomes; fuel is the
remaining loop iterations (10 at the top), visited the loop-detection set,
acc the result struct being mutated, and the second component counts the
HTTP requests issued. -/
def followRedirects (net : String → FetchOutcome) :
    Nat → List String → GoURL → RedirectResult → Nat → RedirectResult × Nat
  | 0, _, _, acc, hops =>
      ({ acc with error := "exceeded maximum redirects (10)" }, hops)
  | fuel + 1, visited, current, acc, hops =>
      if visited.contains current.urlStr then
        ({ acc with redirectLoop := true, error := "redirect loop detected" }, hops)
      else
        match net current.urlStr with
        | .fail msg => ({ acc with error := "request failed: " ++ msg }, hops + 1)
        | .resp r =>
            let acc2 := { acc with statusCode := r.statusCode }
            if 300 ≤ r.statusCode ∧ r.statusCode < 400 then
              match r.location with
              | none =>
                  ({ acc2 with error := "redirect without Location header" }, hops + 1)
              | some u =>
                  if u.scheme = "https" then
                    ({ acc2 with enabled := true, finalURL := u.urlStr }, hops + 1)
                  else
                    followRedirects net fuel (current.urlStr :: visited) u acc2 (hops + 1)
            else
              if current.scheme = "https" then
                ({ acc2 with enabled := true, finalURL := current.urlStr }, hops + 1)
              else
                ({ acc2 with error := "no HTTPS redirect found" }, hops + 1)

/-- Embeds CheckHTTPSRedirect: start at http with 10 iterations of fuel. -/
def checkHTTPSRedirect (net : String → FetchOutcome) (domain : String) :
    RedirectResult × Nat :=
  followRedirects net 10 [] ⟨"http", "http://" ++ domain⟩ {} 0

/-- The URL-string successor induced by a redirect-target map. -/
def gIter (f : String → GoURL) (s : String) : String :=
  (f s).urlStr

lemma followRedirects_detects_revisit (net : String → FetchOutcome)
    (f : String → GoURL) (code : String → Nat)
    (hnet : ∀ s, net s = FetchOutcome.resp ⟨code s, some (f s)⟩)
    (hlo : ∀ s, 300 ≤ code s) (hhi : ∀ s, code s < 400)
    (hscheme : ∀ s, (f s).scheme ≠ "https") :
    ∀ (fuel : Nat) (visited : List String) (current : GoURL)
      (acc : RedirectResult) (hops : Nat),
      (∃ j, j < fuel ∧ ((gIter f)^[j] current.urlStr ∈ visited ∨
        ∃ i, i < j ∧ (gIter f)^[i] current.urlStr = (gIter f)^[j] current.urlStr)) →
      (followRedirects net fuel visited current acc hops).1.redirectLoop = true := by
  intro fuel
  induction fuel with
  | zero =>
      intro visited current acc hops hex
      rcases hex with ⟨j, hj, _⟩
      omega
  | succ fuel ih =>
      intro visited current acc hops hex
      rw [followRedirects]
      by_cases hv : visited.contains current.urlStr
      · rw [if_pos hv]
      · rcases hex with ⟨j, hj, hcase⟩
        have hmem : current.urlStr ∉ visited := by
          intro hmm
          exact hv (List.elem_eq_true_of_mem hmm)
        have hjpos : 1 ≤ j := by
          rcases Nat.eq_zero_or_pos j with h0 | h1
          · subst h0
            rcases hcase with hc | ⟨i, hi, _⟩
            · simp only [Function.iterate_zero_apply] at hc
              exact absurd hc hmem
            · omega
          · exact h1
        simp only [hv, Bool.false_eq_true, if_false, hnet current.urlStr]
        have h3xx : 300 ≤ code current.urlStr ∧ code current.urlStr < 400 :=
          ⟨hlo _, hhi _⟩
        rw [if_pos h3xx]
        rw [if_neg (hscheme current.urlStr)]
        apply ih
        refine ⟨j - 1, by omega, ?_⟩
        have hstep : ∀ n, (gIter f)^[n] (f current.urlStr).urlStr =
            (gIter f)^[n + 1] current.urlStr := by
          intro n
          rw [Function.iterate_succ_apply]
          rfl
        rcases hcase with hc | ⟨i, hi, heq⟩
        · left
          rw [hstep, Nat.sub_add_cancel hjpos]
          exact List.mem_cons_of_mem _ hc
        · rcases Nat.eq_zero_or_pos i with h0 | h1
          · left
            subst h0
            simp only [Function.iterate_zero_apply] at heq
            rw [hstep, Nat.sub_add_cancel hjpos, ← heq]
            exact List.mem_cons_self _ _
          · right
            refine ⟨i - 1, by omega, ?_⟩
            rw [hstep, hstep, Nat.sub_add_cancel h1, Nat.sub_add_cancel hjpos]
            exact heq

lemma followRedirects_hops_le (net : String → FetchOutcome) :
    ∀ (fuel : Nat) (visited : List String) (current : GoURL)
      (acc : RedirectResult) (hops : Nat),
      (followRedirects net fuel visited current acc hops).2 ≤ hops + fuel := by
  intro fuel
  induction fuel with
  | zero =>
      intro visited current acc hops
      simp [followRedirects]
  | succ fuel ih =>
      intro visited current acc hops
      rw [followRedirects]
      by_cases hv : visited.contains current.urlStr
      · rw [if_pos hv]
        show hops ≤ hops + (fuel + 1)
        omega
      · simp only [hv, Bool.false_eq_true, if_false]
        cases hn : net current.urlStr with
        | fail msg =>
            simp only []
            omega
        | resp r =>
            simp only []
            by_cases h3 : 300 ≤ r.statusCode ∧ r.statusCode < 400
            · rw [if_pos h3]
              cases hl : r.location with
              | none =>
                  simp only []
                  omega
              | some u =>
                  simp only []
                  by_cases hs : u.scheme = "https"
                  · rw [if_pos hs]
                    simp only []
                    omega
                  · rw [if_neg hs]
                    have := ih (current.urlStr :: visited) u
                      { acc with statusCode := r.statusCode } (hops + 1)
                    omega
            · rw [if_neg h3]
              by_cases hs : current.scheme = "https"
              · rw [if_pos hs]
                simp only []
                omega
              · rw [if_neg hs]
                simp only []
                omega

/-- C6: whenever the network always answers with a non-HTTPS redirect and
the induced redirect chain from http returns to its start within at most 9
hops (as in A to B back to A), the redirect check reports a redirect loop;
and on every network and domain the check issues at most 10 HTTP
requests. -/
theorem checkHTTPSRedirect_cycle_and_bound :
    (∀ (net : String → FetchOutcome) (f : String → GoURL) (code : String → Nat)
       (domain : String) (k : Nat),
       (∀ s, net s = FetchOutcome.resp ⟨code s, some (f s)⟩) →
       (∀ s, 300 ≤ code s) → (∀ s, code s < 400) →
       (∀ s, (f s).scheme ≠ "https") →
       1 ≤ k → k ≤ 9 →
       (gIter f)^[k] ("http://" ++ domain) = "http://" ++ domain →
       (checkHTTPSRedirect net domain).1.redirectLoop = true) ∧
    (∀ (net : String → FetchOutcome) (domain : String),
       (checkHTTPSRedirect net domain).2 ≤ 10) := by
  constructor
  · intro net f code domain k hnet hlo hhi hscheme hk1 hk9 hcycle
    rw [checkHTTPSRedirect]
    apply followRedirects_detects_revisit net f code hnet hlo hhi hscheme
    refine ⟨k, by omega, Or.inr ⟨0, by omega, ?_⟩⟩
    simp only [Function.iterate_zero_apply]
    exact hcycle.symm
  · intro net domain
    rw [checkHTTPSRedirect]
    exact followRedirects_hops_le net 10 [] ⟨"http", "http://" ++ domain⟩ {} 0

/-- The two-element redirect cycle used as a concrete witness: the start
URL redirects to a second URL which redirects back to the start. -/
def cycleTarget : String → GoURL := fun s =>
  if s = "http://example.com" then ⟨"http", "http://b.example"⟩
  else ⟨"http", "http://example.com"⟩

/-- C6 witness: on the concrete A to B to A cycle the check flags a
redirect loop and stays within the 10-request bound. -/
theorem checkHTTPSRedirect_cycle_and_bound_witness :
    (checkHTTPSRedirect (fun s => FetchOutcome.resp ⟨301, some (cycleTarget s)⟩)
        "example.com").1.redirectLoop = true ∧
    (checkHTTPSRedirect (fun s => FetchOutcome.resp ⟨301, some (cycleTarget s)⟩)
        "example.com").2 ≤ 10 :=
  ⟨checkHTTPSRedirect_cycle_and_bound.1
      (fun s => FetchOutcome.resp ⟨301, some (cycleTarget s)⟩) cycleTarget
      (fun _ => 301) "example.com" 2
      (fun _ => rfl) (fun _ => by norm_num) (fun _ => by norm_num)
      (fun s => by rw [cycleTarget]; split_ifs <;> decide)
      (by omega) (by omega) (by decide),
   checkHTTPSRedirect_cycle_and_bound.2
      (fun s => FetchOutcome.resp ⟨301, some (cycleTarget s)⟩) "example.com"⟩

/-! ## Identity scan group (IdentityScanner.ScanIdentity, identity.go)

The five probes each deliver exactly one channel message: the IP and
nameserver probes send their value on success and their error on errChan on
failure; the DNSSEC, CAA and WHOIS probes always send a result.  The
collection loop runs five iterations, routing each arrival to its fixed
destination variable; only the arrival order varies between executions, so
a run is modelled by the probe outcomes plus a completion order that is a
permutation of the five probes. -/

/-- The five probes of the identity group. -/
inductive IdProbe where
  | ip | ns | dnssec | caa | whois
deriving DecidableEq, Repr

/-- The outcomes of the five identity probes for one run. -/
structure IdentityProbes where
  ipRes : Except String String
  nsRes : Except String (List String)
  dnssec : DNSSECResult
  caa : CAAResult
  whois : WHOISResult

/-- The collection-loop state: the five destination variables and the
collected error list. -/
structure IdCollect where
  ip : String := ""
  nameservers : List String := []
  dnssec : DNSSECResult := {}
  caa : CAAResult := {}
  whois : WHOISResult := {}
  errors : List String := []
deriving DecidableEq, Repr

/-- One iteration of the five-way select: route the completion of the given
probe to its destination variable, or append its error to the error list. -/
def idStep (pr : IdentityProbes) (st : IdCollect) : IdProbe → IdCollect
  | .ip =>
      match pr.ipRes with
      | .ok v => { st with ip := v }
      | .error e => { st with errors := st.errors ++ [e] }
  | .ns =>
      match pr.nsRes with
      | .ok v => { st with nameservers := v }
      | .error e => { st with errors := st.errors ++ [e] }
  | .dnssec => { st with dnssec := pr.dnssec }
  | .caa => { st with caa := pr.caa }
  | .whois => { st with whois := pr.whois }

/-- The canonical completion order (one completion per probe). -/
def idCanonicalOrder : List IdProbe :=
  [.ip, .ns, .dnssec, .caa, .whois]

/-- Go fmt %v rendering of an error slice: space-separated in brackets. -/
def goErrorsFormat (errs : List String) : String :=
  "[" ++ String.intercalate " " errs ++ "]"

/-- The Identity section assembled after the collection loop. -/
def idSection (pr : IdentityProbes) (order : List IdProbe) : Identity :=
  let st := order.foldl (idStep pr) {}
  let base : Identity :=
    { ip := st.ip, nameservers := st.nameservers,
      dnssecEnabled := st.dnssec.enabled, dnssecValid := st.dnssec.valid,
      dnssecError := st.dnssec.error,
      caaRecords := st.caa.records, caaMissing := st.caa.missing }
  match st.whois.error with
  | none =>
      { base with registrar := st.whois.registrar, owner := st.whois.owner,
                  expiresDays := st.whois.expiresDays }
  | some _ => base

/-- The error list collected by the loop, in completion order. -/
def idErrors (pr : IdentityProbes) (order : List IdProbe) : List String :=
  (order.foldl (idStep pr) {}).errors

/-- Embeds ScanIdentity for a run in which all five probes complete before
the deadline and the context is not cancelled: collect the five
completions, assemble the section, and fail only when the IP is still
empty and at least one error was collected. -/
def scanIdentity (pr : IdentityProbes) (order : List IdProbe) :
    Identity × Option String :=
  let identity := idSection pr order
  if identity.ip = "" ∧ idErrors pr order ≠ [] then
    (identity, some ("DNS resolution failed: " ++ goErrorsFormat (idErrors pr order)))
  else (identity, none)

lemma idFold_ip (pr : IdentityProbes) :
    ∀ (order : List IdProbe) (st : IdCollect),
      (order.foldl (idStep pr) st).ip =
        if IdProbe.ip ∈ order then
          (match pr.ipRes with | .ok v => v | .error _ => st.ip)
        else st.ip := by
  intro order
  induction order with
  | nil => intro st; simp
  | cons p rest ih =>
      intro st
      rw [List.foldl_cons]
      cases p with
      | ip =>
          cases h : pr.ipRes with
          | ok v => simp [idStep, h, ih, List.mem_cons]
          | error e => simp [idStep, h, ih, List.mem_cons]
      | ns =>
          cases h : pr.nsRes with
          | ok v => simp [idStep, h, ih, List.mem_cons]
          | error e => simp [idStep, h, ih, List.mem_cons]
      | dnssec => simp [idStep, ih, List.mem_cons]
      | caa => simp [idStep, ih, List.mem_cons]
      | whois => simp [idStep, ih, List.mem_cons]

lemma idFold_ns (pr : IdentityProbes) :
    ∀ (order : List IdProbe) (st : IdCollect),
      (order.foldl (idStep pr) st).nameservers =
        if IdProbe.ns ∈ order then
          (match pr.nsRes with | .ok v => v | .error _ => st.nameservers)
        else st.nameservers := by
  intro order
  induction order with
  | nil => intro st; simp
  | cons p rest ih =>
      intro st
      rw [List.foldl_cons]
      cases p with
      | ip =>
          cases h : pr.ipRes with
          | ok v => simp [idStep, h, ih, List.mem_cons]
          | error e => simp [idStep, h, ih, List.mem_cons]
      | ns =>
          cases h : pr.nsRes with
          | ok v => simp [idStep, h, ih, List.mem_cons]
          | error e => simp [idStep, h, ih, List.mem_cons]
      | dnssec => simp [idStep, ih, List.mem_cons]
      | caa => simp [idStep, ih, List.mem_cons]
      | whois => simp [idStep, ih, List.mem_cons]

lemma idFold_dnssec (pr : IdentityProbes) :
    ∀ (order : List IdProbe) (st : IdCollect),
      (order.foldl (idStep pr) st).dnssec =
        if IdProbe.dnssec ∈ order then pr.dnssec else st.dnssec := by
  intro order
  induction order with
  | nil => intro st; simp
  | cons p rest ih =>
      intro st
      rw [List.foldl_cons]
      cases p with
      | ip =>
          cases h : pr.ipRes with
          | ok v => simp [idStep, h, ih, List.mem_cons]
          | error e => simp [idStep, h, ih, List.mem_cons]
      | ns =>
          cases h : pr.nsRes with
          | ok v => simp [idStep, h, ih, List.mem_cons]
          | error e => simp [idStep, h, ih, List.mem_cons]
      | dnssec => simp [idStep, ih, List.mem_cons]
      | caa => simp [idStep, ih, List.mem_cons]
      | whois => simp [idStep, ih, List.mem_cons]

lemma idFold_caa (pr : IdentityProbes) :
    ∀ (order : List IdProbe) (st : IdCollect),
      (order.foldl (idStep pr) st).caa =
        if IdProbe.caa ∈ order then pr.caa else st.caa := by
  intro order
  induction order with
  | nil => intro st; simp
  | cons p rest ih =>
      intro st
      rw [List.foldl_cons]
      cases p with
      | ip =>
          cases h : pr.ipRes with
          | ok v => simp [idStep, h, ih, List.mem_cons]
          | error e => simp [idStep, h, ih, List.mem_cons]
      | ns =>
          cases h : pr.nsRes with
          | ok v => simp [idStep, h, ih, List.mem_cons]
          | error e => simp [idStep, h, ih, List.mem_cons]
      | dnssec => simp [idStep, ih, List.mem_cons]
      | caa => simp [idStep, ih, List.mem_cons]
      | whois => simp [idStep, ih, List.mem_cons]

lemma idFold_whois (pr : IdentityProbes) :
    ∀ (order : List IdProbe) (st : IdCollect),
      (order.foldl (idStep pr) st).whois =
        if IdProbe.whois ∈ order then pr.whois else st.whois := by
  intro order
  induction order with
  | nil => intro st; simp
  | cons p rest ih =>
      intro st
      rw [List.foldl_cons]
      cases p with
      | ip =>
          cases h : pr.ipRes with
          | ok v => simp [idStep, h, ih, List.mem_cons]
          | error e => simp [idStep, h, ih, List.mem_cons]
      | ns =>
          cases h : pr.nsRes with
          | ok v => simp [idStep, h, ih, List.mem_cons]
          | error e => simp [idStep, h, ih, List.mem_cons]
      | dnssec => simp [idStep, ih, List.mem_cons]
      | caa => simp [idStep, ih, List.mem_cons]
      | whois => simp [idStep, ih, List.mem_cons]

/-- The per-probe error contribution to the collected error list. -/
def idProbeErr (pr : IdentityProbes) : IdProbe → Option String
  | .ip => match pr.ipRes with | .ok _ => none | .error e => some e
  | .ns => match pr.nsRes with | .ok _ => none | .error e => some e
  | .dnssec => none
  | .caa => none
  | .whois => none

lemma idFold_errors (pr : IdentityProbes) :
    ∀ (order : List IdProbe) (st : IdCollect),
      (order.foldl (idStep pr) st).errors =
        st.errors ++ order.filterMap (idProbeErr pr) := by
  intro order
  induction order with
  | nil => intro st; simp
  | cons p rest ih =>
      intro st
      rw [List.foldl_cons]
      cases p with
      | ip =>
          cases h : pr.ipRes with
          | ok v => simp [idStep, idProbeErr, h, ih]
          | error e => simp [idStep, idProbeErr, h, ih]
      | ns =>
          cases h : pr.nsRes with
          | ok v => simp [idStep, idProbeErr, h, ih]
          | error e => simp [idStep, idProbeErr, h, ih]
      | dnssec => simp [idStep, idProbeErr, ih]
      | caa => simp [idStep, idProbeErr, ih]
      | whois => simp [idStep, idProbeErr, ih]

lemma idSection_perm_canonical (pr : IdentityProbes) (order : List IdProbe)
    (hperm : order.Perm idCanonicalOrder) :
    idSection pr order = idSection pr idCanonicalOrder := by
  have hip : IdProbe.ip ∈ order := hperm.mem_iff.mpr (by decide)
  have hns : IdProbe.ns ∈ order := hperm.mem_iff.mpr (by decide)
  have hdn : IdProbe.dnssec ∈ order := hperm.mem_iff.mpr (by decide)
  have hca : IdProbe.caa ∈ order := hperm.mem_iff.mpr (by decide)
  have hwh : IdProbe.whois ∈ order := hperm.mem_iff.mpr (by decide)
  rw [idSection, idSection]
  simp only [idFold_ip, idFold_ns, idFold_dnssec, idFold_caa, idFold_whois,
    hip, hns, hdn, hca, hwh, if_pos]
  simp [idCanonicalOrder]

lemma scanIdentity_fst (pr : IdentityProbes) (order : List IdProbe) :
    (scanIdentity pr order).1 = idSection pr order := by
  rw [scanIdentity]
  split <;> rfl

/-- C5 (amended): for every identity-group run that collects all five probe
results before its deadline, the group returns a non-nil error if and only
if the resolved IP field is still empty and at least one probe error was
collected; in that case the returned error is a fresh DNS-resolution-failed
error wrapping the whole collected error list (not the first collected
error itself); if the IP field is non-empty the error is nil even when
other probes failed; and errors are collected exactly when the IP or
nameserver probe failed. -/
theorem scanIdentity_error_policy (pr : IdentityProbes) (order : List IdProbe)
    (hperm : order.Perm idCanonicalOrder) :
    ((scanIdentity pr order).2 = none ↔
      ¬((scanIdentity pr order).1.ip = "" ∧ idErrors pr order ≠ [])) ∧
    ((scanIdentity pr order).1.ip = "" → idErrors pr order ≠ [] →
      (scanIdentity pr order).2 =
        some ("DNS resolution failed: " ++ goErrorsFormat (idErrors pr order))) ∧
    (idErrors pr order = [] ↔
      ((∃ v, pr.ipRes = Except.ok v) ∧ (∃ l, pr.nsRes = Except.ok l))) := by
  refine ⟨?_, ?_, ?_⟩
  · rw [scanIdentity]
    split
    · rename_i hc
      simp only [scanIdentity_fst] at hc ⊢
      simp [hc]
    · rename_i hc
      simp only [scanIdentity_fst] at hc ⊢
      simp [hc]
  · intro hip herr
    rw [scanIdentity_fst] at hip
    rw [scanIdentity]
    rw [if_pos ⟨hip, herr⟩]
  · have hip : IdProbe.ip ∈ order := hperm.mem_iff.mpr (by decide)
    have hns : IdProbe.ns ∈ order := hperm.mem_iff.mpr (by decide)
    rw [idErrors, idFold_errors]
    simp only [List.nil_append, List.filterMap_eq_nil]
    constructor
    · intro hall
      have h1 := hall IdProbe.ip hip
      have h2 := hall IdProbe.ns hns
      constructor
      · cases h : pr.ipRes with
        | ok v => exact ⟨v, rfl⟩
        | error e => rw [idProbeErr, h] at h1; exact absurd h1 (by simp)
      · cases h : pr.nsRes with
        | ok l => exact ⟨l, rfl⟩
        | error e => rw [idProbeErr, h] at h2; exact absurd h2 (by simp)
    · rintro ⟨⟨v, hv⟩, ⟨l, hl⟩⟩ a _
      cases a with
      | ip => rw [idProbeErr, hv]
      | ns => rw [idProbeErr, hl]
      | dnssec => rfl
      | caa => rfl
      | whois => rfl

/-- The concrete identity run used for C5: DNS IP resolution fails, the
nameserver probe succeeds, the other probes return zero results. -/
def c5Probes : IdentityProbes :=
  { ipRes := Except.error "lookup failed", nsRes := Except.ok ["ns1.example.com"],
    dnssec := {}, caa := {}, whois := {} }

/-- C5 counterexample: when the only collected error is the IP lookup
failure, the group does not return that first collected error; it returns a
fresh error wrapping the error list. -/
theorem scanIdentity_wraps_error_list :
    ((scanIdentity c5Probes idCanonicalOrder).2 = some "lookup failed") = False ∧
    (scanIdentity c5Probes idCanonicalOrder).2 =
      some "DNS resolution failed: [lookup failed]" := by
  constructor
  · apply eq_false
    decide
  · decide

/-- C5 witness: the amended error policy applied to the concrete failing
run. -/
theorem scanIdentity_error_policy_witness :
    (scanIdentity c5Probes idCanonicalOrder).2 =
      some ("DNS resolution failed: " ++ goErrorsFormat (idErrors c5Probes idCanonicalOrder)) :=
  (scanIdentity_error_policy c5Probes idCanonicalOrder (List.Perm.refl _)).2.1
    (by decide) (by decide)

/-! ## Findings scan group (FindingsScanner.ScanFindings, findings.go)

The email and header goroutines write their results into shared structs and
then signal a done channel; on failure they additionally send the error on
errChan first, so a failing probe contributes two channel events.  The
redirect probe sends its result on its own channel.  The collection loop
runs only three iterations, consuming three of the available events in
arrival order; the redirect result is recorded only if its event is among
the consumed three.  All sends are buffered, so the goroutine struct writes
complete regardless of which events the loop consumes. -/

/-- A channel event the findings collection loop can consume. -/
inductive FdEvent where
  | emailDone | headersDone | redirectEv | errEv
deriving DecidableEq, Repr, Fintype

/-- The outcomes of the three findings probes for one run. -/
structure FindingsProbes where
  emailRes : Except String EmailSec
  headersRes : Except String (List String)
  redirectRes : RedirectResult

/-- The multiset (as a list) of channel events produced by one run: a
failing email or header probe sends its error before its done signal. -/
def fdPool (pr : FindingsProbes) : List FdEvent :=
  (match pr.emailRes with
   | .ok _ => [FdEvent.emailDone]
   | .error _ => [FdEvent.errEv, FdEvent.emailDone]) ++
  (match pr.headersRes with
   | .ok _ => [FdEvent.headersDone]
   | .error _ => [FdEvent.errEv, FdEvent.headersDone]) ++
  [FdEvent.redirectEv]

/-- A possible consumption sequence of the three-iteration loop: three
events drawn from the pool (multiplicities respected). -/
def validFdOrder (pr : FindingsProbes) (order : List FdEvent) : Prop :=
  order.length = 3 ∧ ∀ e : FdEvent, order.count e ≤ (fdPool pr).count e

instance validFdOrderDec (pr : FindingsProbes) (order : List FdEvent) :
    Decidable (validFdOrder pr order) :=
  inferInstanceAs (Decidable
    (order.length = 3 ∧ ∀ e : FdEvent, order.count e ≤ (fdPool pr).count e))

/-- Embeds ScanFindings for a run in which all probes complete before the
deadline and the context is not cancelled: the email and header sections
come from the goroutine struct writes (visible whether or not their done
signals were consumed), the redirect sub-record only if the redirect
completion was among the three consumed events, and the returned error is
nil. -/
def scanFindings (pr : FindingsProbes) (order : List FdEvent) :
    Findings × Option String :=
  let emailFindings : EmailFindings :=
    match pr.emailRes with
    | .ok e => { emailSec := e }
    | .error _ => {}
  let headers : List String :=
    match pr.headersRes with
    | .ok h => h
    | .error _ => []
  let redirectResult : RedirectResult :=
    if order.contains FdEvent.redirectEv then pr.redirectRes else {}
  let httpFindings : HTTPFindings :=
    { headers := headers,
      httpsRedirect :=
        { enabled := redirectResult.enabled, statusCode := redirectResult.statusCode,
          finalURL := redirectResult.finalURL, redirectLoop := redirectResult.redirectLoop,
          error := redirectResult.error } }
  ({ http := httpFindings, email := emailFindings }, none)

lemma validFdOrder_no_err_consumes_redirect (pr : FindingsProbes)
    (he : ∃ e, pr.emailRes = Except.ok e) (hh : ∃ h, pr.headersRes = Except.ok h)
    (order : List FdEvent) (hv : validFdOrder pr order) :
    order.contains FdEvent.redirectEv = true := by
  rcases he with ⟨e, he⟩
  rcases hh with ⟨h, hh⟩
  rcases hv with ⟨hlen, hcount⟩
  have hpool : fdPool pr = [FdEvent.emailDone, FdEvent.headersDone, FdEvent.redirectEv] := by
    simp [fdPool, he, hh]
  rw [hpool] at hcount
  obtain ⟨a, b, c, rfl⟩ := List.length_eq_three.mp hlen
  have h1 := hcount FdEvent.emailDone
  have h2 := hcount FdEvent.headersDone
  have h3 := hcount FdEvent.redirectEv
  have h4 := hcount FdEvent.errEv
  clear hcount hlen hpool he hh
  revert h1 h2 h3 h4
  revert a b c
  decide

/-- The concrete findings run used for C8: the email probe fails, the
header probe succeeds, the redirect probe reports an enabled redirect. -/
def c8Probes : FindingsProbes :=
  { emailRes := Except.error "dns failure", headersRes := Except.ok [],
    redirectRes := { enabled := true, statusCode := 301,
                     finalURL := "https://example.com", redirectLoop := false,
                     error := "" } }

/-- C8 counterexample: with a failing email probe the run produces four
channel events but the loop consumes only three, so two valid consumption
orders of the same fixed probe outcomes yield different findings sections
(one drops the redirect sub-record). -/
theorem scanFindings_section_depends_on_order :
    validFdOrder c8Probes [FdEvent.errEv, FdEvent.emailDone, FdEvent.headersDone] ∧
    validFdOrder c8Probes [FdEvent.errEv, FdEvent.headersDone, FdEvent.redirectEv] ∧
    ((scanFindings c8Probes [FdEvent.errEv, FdEvent.emailDone, FdEvent.headersDone]).1 =
      (scanFindings c8Probes [FdEvent.errEv, FdEvent.headersDone, FdEvent.redirectEv]).1)
      = False := by
  refine ⟨by decide, by decide, eq_false (by decide)⟩

/-- C8 (amended): the identity group's section is a deterministic function
of its probe outcomes, identical under any completion order; the findings
group's section is likewise order-insensitive provided no probe errored
(so the loop's three iterations consume exactly the three completions);
when a findings probe errors, the redirect sub-record may be dropped
depending on which three of the four-plus events the loop consumes. -/
theorem scanGroups_order_insensitive :
    (∀ (pr : IdentityProbes) (o1 o2 : List IdProbe),
       o1.Perm idCanonicalOrder → o2.Perm idCanonicalOrder →
       (scanIdentity pr o1).1 = (scanIdentity pr o2).1) ∧
    (∀ (pr : FindingsProbes) (o1 o2 : List FdEvent),
       (∃ e, pr.emailRes = Except.ok e) → (∃ h, pr.headersRes = Except.ok h) →
       validFdOrder pr o1 → validFdOrder pr o2 →
       (scanFindings pr o1).1 = (scanFindings pr o2).1) := by
  constructor
  · intro pr o1 o2 h1 h2
    rw [scanIdentity_fst, scanIdentity_fst,
      idSection_perm_canonical pr o1 h1, idSection_perm_canonical pr o2 h2]
  · intro pr o1 o2 he hh hv1 hv2
    have h1 := validFdOrder_no_err_consumes_redirect pr he hh o1 hv1
    have h2 := validFdOrder_no_err_consumes_redirect pr he hh o2 hv2
    rw [scanFindings, scanFindings, h1, h2]

/-- The concrete all-success identity run used as the C8 witness input. -/
def c8IdProbes : IdentityProbes :=
  { ipRes := Except.ok "93.184.216.34", nsRes := Except.ok ["ns1.example.com"],
    dnssec := { enabled := true, valid := true, error := "" },
    caa := { records := ["letsencrypt.org"], missing := false },
    whois := { registrar := "Example Registrar", owner := "Example Owner",
               expiresDays := 100, error := none } }

/-- C8 witness: two different completion orders of the same identity run
produce the same section. -/
theorem scanGroups_order_insensitive_witness :
    (scanIdentity c8IdProbes [IdProbe.ns, .ip, .whois, .caa, .dnssec]).1 =
      (scanIdentity c8IdProbes idCanonicalOrder).1 :=
  scanGroups_order_insensitive.1 c8IdProbes
    [IdProbe.ns, .ip, .whois, .caa, .dnssec] idCanonicalOrder
    (by decide) (by decide)

/-! ## Root scan orchestrator (ScannerImpl.Scan, certificates.go / orchestrator.go)

Each of the three scan groups finishes with a section pointer (possibly
nil) and an error (possibly nil); under the mutex its goroutine first
appends a non-nil error to the shared error slice and then copies a
non-nil section into the report.  Only the order in which the three
goroutines take the mutex varies, so a run is modelled by the three group
results plus a completion order that is a permutation of the three
groups. -/

/-- The three scan groups. -/
inductive ScanGroup where
  | identity | certificate | findings
deriving DecidableEq, Repr

/-- The results of the three scan groups for one run: each is the returned
section (none for a nil pointer) and the returned error (none for nil). -/
structure GroupResults where
  identityRes : Option Identity × Option String
  certRes : Option Certificates × Option String
  findingsRes : Option Findings × Option String

/-- One group goroutine's mutex-protected block: append its error, then
copy its section into the report. -/
def orchStep (gr : GroupResults) (acc : Report × List String) (g : ScanGroup) :
    Report × List String :=
  match g with
  | .identity =>
      let errs := match gr.identityRes.2 with
        | some e => acc.2 ++ [e]
        | none => acc.2
      let rep := match gr.identityRes.1 with
        | some s => { acc.1 with identity := s }
        | none => acc.1
      (rep, errs)
  | .certificate =>
      let errs := match gr.certRes.2 with
        | some e => acc.2 ++ [e]
        | none => acc.2
      let rep := match gr.certRes.1 with
        | some s => { acc.1 with certificates := s }
        | none => acc.1
      (rep, errs)
  | .findings =>
      let errs := match gr.findingsRes.2 with
        | some e => acc.2 ++ [e]
        | none => acc.2
      let rep := match gr.findingsRes.1 with
        | some s => { acc.1 with findings := s }
        | none => acc.1
      (rep, errs)

/-- The canonical completion order of the three groups. -/
def orchCanonicalOrder : List ScanGroup :=
  [.identity, .certificate, .findings]

/-- The error a group contributes to the shared error slice. -/
def groupErr (gr : GroupResults) : ScanGroup → Option String
  | .identity => gr.identityRes.2
  | .certificate => gr.certRes.2
  | .findings => gr.findingsRes.2

/-- The shared error slice after all three goroutines ran, in completion
order. -/
def orchErrors (gr : GroupResults) (order : List ScanGroup) : List String :=
  order.filterMap (groupErr gr)

/-- Embeds ScannerImpl.Scan: run the three groups, join, and fail only
when at least one error was collected while both the identity IP and the
certificate common name are still empty; on failure return the first
collected error. -/
def scan (gr : GroupResults) (domain : String) (now : Int)
    (order : List ScanGroup) : Report × Option String :=
  let init : Report := { target := domain, timestamp := now }
  let res := order.foldl (orchStep gr) (init, [])
  if res.2 ≠ [] ∧ res.1.identity.ip = "" ∧ res.1.certificates.commonName = "" then
    (res.1, res.2.head?)
  else (res.1, none)

lemma orchFold_errors (gr : GroupResults) :
    ∀ (order : List ScanGroup) (acc : Report × List String),
      (order.foldl (orchStep gr) acc).2 = acc.2 ++ order.filterMap (groupErr gr) := by
  intro order
  induction order with
  | nil => intro acc; simp
  | cons g rest ih =>
      intro acc
      rw [List.foldl_cons]
      cases g with
      | identity =>
          cases h : gr.identityRes.2 with
          | none => simp [orchStep, groupErr, h, ih]
          | some e => simp [orchStep, groupErr, h, ih]
      | certificate =>
          cases h : gr.certRes.2 with
          | none => simp [orchStep, groupErr, h, ih]
          | some e => simp [orchStep, groupErr, h, ih]
      | findings =>
          cases h : gr.findingsRes.2 with
          | none => simp [orchStep, groupErr, h, ih]
          | some e => simp [orchStep, groupErr, h, ih]

lemma orchFold_identity (gr : GroupResults) :
    ∀ (order : List ScanGroup) (acc : Report × List String),
      (order.foldl (orchStep gr) acc).1.identity =
        if ScanGroup.identity ∈ order then
          (match gr.identityRes.1 with | some s => s | none => acc.1.identity)
        else acc.1.identity := by
  intro order
  induction order with
  | nil => intro acc; simp
  | cons g rest ih =>
      intro acc
      rw [List.foldl_cons]
      cases g with
      | identity =>
          cases h : gr.identityRes.1 with
          | none => simp [orchStep, h, ih, List.mem_cons]
          | some s => simp [orchStep, h, ih, List.mem_cons]
      | certificate =>
          cases h : gr.certRes.1 with
          | none => simp [orchStep, h, ih, List.mem_cons]
          | some s => simp [orchStep, h, ih, List.mem_cons]
      | findings =>
          cases h : gr.findingsRes.1 with
          | none => simp [orchStep, h, ih, List.mem_cons]
          | some s => simp [orchStep, h, ih, List.mem_cons]

lemma orchFold_certificates (gr : GroupResults) :
    ∀ (order : List ScanGroup) (acc : Report × List String),
      (order.foldl (orchStep gr) acc).1.certificates =
        if ScanGroup.certificate ∈ order then
          (match gr.certRes.1 with | some s => s | none => acc.1.certificates)
        else acc.1.certificates := by
  intro order
  induction order with
  | nil => intro acc; simp
  | cons g rest ih =>
      intro acc
      rw [List.foldl_cons]
      cases g with
      | identity =>
          cases h : gr.identityRes.1 with
          | none => simp [orchStep, h, ih, List.mem_cons]
          | some s => simp [orchStep, h, ih, List.mem_cons]
      | certificate =>
          cases h : gr.certRes.1 with
          | none => simp [orchStep, h, ih, List.mem_cons]
          | some s => simp [orchStep, h, ih, List.mem_cons]
      | findings =>
          cases h : gr.findingsRes.1 with
          | none => simp [orchStep, h, ih, List.mem_cons]
          | some s => simp [orchStep, h, ih, List.mem_cons]

lemma scan_fst (gr : GroupResults) (domain : String) (now : Int)
    (order : List ScanGroup) :
    (scan gr domain now order).1 =
      (order.foldl (orchStep gr) ({ target := domain, timestamp := now }, [])).1 := by
  rw [scan]
  split <;> rfl

/-- C1: the orchestrator returns a non-nil error exactly when at least one
scan group returned an error while both the report's identity IP and its
certificate common name are empty; in that case it returns the first
collected group error, and in every other case (partial success included)
it returns the assembled report with a nil error.  Errors are collected
exactly from the groups whose error was non-nil. -/
theorem scan_total_failure_policy (gr : GroupResults) (domain : String) (now : Int)
    (order : List ScanGroup) (hperm : order.Perm orchCanonicalOrder) :
    ((scan gr domain now order).2.isSome = true ↔
      (orchErrors gr order ≠ [] ∧
       (scan gr domain now order).1.identity.ip = "" ∧
       (scan gr domain now order).1.certificates.commonName = "")) ∧
    (orchErrors gr order = [] ↔
      (gr.identityRes.2 = none ∧ gr.certRes.2 = none ∧ gr.findingsRes.2 = none)) ∧
    ((scan gr domain now order).2.isSome = true →
      (scan gr domain now order).2 = (orchErrors gr order).head?) := by
  have hres2 : (order.foldl (orchStep gr)
      (({ target := domain, timestamp := now } : Report), [])).2 = orchErrors gr order := by
    rw [orchFold_errors]
    rfl
  refine ⟨?_, ?_, ?_⟩
  · rw [scan]
    split
    · rename_i hc
      rw [hres2] at hc
      cases hl : orchErrors gr order with
      | nil => exact absurd hl hc.1
      | cons a t =>
          rw [hres2, hl]
          simp only [List.head?_cons, Option.isSome_some, true_iff]
          exact ⟨by simp, hc.2.1, hc.2.2⟩
    · rename_i hc
      rw [hres2] at hc
      simp only [Option.isSome_none, Bool.false_eq_true, false_iff]
      intro hcon
      exact hc ⟨hcon.1, hcon.2.1, hcon.2.2⟩
  · have hid : ScanGroup.identity ∈ order := hperm.mem_iff.mpr (by decide)
    have hce : ScanGroup.certificate ∈ order := hperm.mem_iff.mpr (by decide)
    have hfi : ScanGroup.findings ∈ order := hperm.mem_iff.mpr (by decide)
    rw [orchErrors, List.filterMap_eq_nil_iff]
    constructor
    · intro hall
      refine ⟨hall ScanGroup.identity hid, hall ScanGroup.certificate hce,
        hall ScanGroup.findings hfi⟩
    · rintro ⟨h1, h2, h3⟩ a _
      cases a with
      | identity => exact h1
      | certificate => exact h2
      | findings => exact h3
  · rw [scan]
    split
    · rw [hres2]
      intro _
      rfl
    · intro hcon
      exact absurd hcon (by simp)

/-- The concrete total-failure run used as the C1 witness input: all three
groups error and no identifying field is set. -/
def c1Groups : GroupResults :=
  { identityRes := (some {}, some "identity failed"),
    certRes := (none, some "certificate failed"),
    findingsRes := (none, some "findings failed") }

/-- C1 witness: on the concrete total failure the orchestrator returns the
first collected group error. -/
theorem scan_total_failure_policy_witness :
    (scan c1Groups "example.com" 0 orchCanonicalOrder).2 = some "identity failed" :=
  (scan_total_failure_policy c1Groups "example.com" 0 orchCanonicalOrder
    (List.Perm.refl _)).2.2 (by decide)

/-- C10: a group's non-nil section is copied into the report even when that
group also returned a non-nil error (for the identity and certificate
groups alike), and the identity group really produces such a pair: on a
failed IP resolution with a successful nameserver probe it returns a
section carrying the nameservers together with a non-nil error. -/
theorem scan_keeps_errored_group_sections :
    (∀ (gr : GroupResults) (domain : String) (now : Int) (order : List ScanGroup),
       order.Perm orchCanonicalOrder →
       ∀ s e, gr.identityRes = (some s, some e) →
         (scan gr domain now order).1.identity = s) ∧
    (∀ (gr : GroupResults) (domain : String) (now : Int) (order : List ScanGroup),
       order.Perm orchCanonicalOrder →
       ∀ c e, gr.certRes = (some c, some e) →
         (scan gr domain now order).1.certificates = c) ∧
    (∀ (pr : IdentityProbes) (o : List IdProbe), o.Perm idCanonicalOrder →
       ∀ e l, pr.ipRes = Except.error e → pr.nsRes = Except.ok l →
         (scanIdentity pr o).1.nameservers = l ∧ (scanIdentity pr o).2.isSome = true) := by
  refine ⟨?_, ?_, ?_⟩
  · intro gr domain now order hperm s e hid
    have hmem : ScanGroup.identity ∈ order := hperm.mem_iff.mpr (by decide)
    rw [scan_fst, orchFold_identity]
    simp [hmem, hid]
  · intro gr domain now order hperm c e hce
    have hmem : ScanGroup.certificate ∈ order := hperm.mem_iff.mpr (by decide)
    rw [scan_fst, orchFold_certificates]
    simp [hmem, hce]
  · intro pr o hperm e l herr hok
    have hipm : IdProbe.ip ∈ o := hperm.mem_iff.mpr (by decide)
    have hnsm : IdProbe.ns ∈ o := hperm.mem_iff.mpr (by decide)
    have hip0 : (idSection pr o).ip = "" := by
      rw [idSection]
      cases hw : (o.foldl (idStep pr) {}).whois.error <;>
        simp [idFold_ip, hipm, herr]
    have hns : (idSection pr o).nameservers = l := by
      rw [idSection]
      cases hw : (o.foldl (idStep pr) {}).whois.error <;>
        simp [idFold_ns, hnsm, hok]
    have herrs : idErrors pr o ≠ [] := by
      rw [idErrors, idFold_errors]
      simp only [List.nil_append]
      intro hnil
      rw [List.filterMap_eq_nil_iff] at hnil
      have hnone := hnil IdProbe.ip hipm
      rw [idProbeErr, herr] at hnone
      exact absurd hnone (by simp)
    constructor
    · rw [scanIdentity_fst]
      exact hns
    · rw [scanIdentity, if_pos ⟨hip0, herrs⟩]
      rfl

/-- The concrete errored identity result used as the C10 witness input. -/
def c10Groups : GroupResults :=
  { identityRes := (some { ip := "", nameservers := ["ns1.example.com"] },
                    some "DNS resolution failed"),
    certRes := (none, none),
    findingsRes := (none, none) }

/-- C10 witness: the orchestrator keeps the nameservers delivered by an
identity group that also reported an error. -/
theorem scan_keeps_errored_group_sections_witness :
    (scan c10Groups "example.com" 0 orchCanonicalOrder).1.identity =
      { ip := "", nameservers := ["ns1.example.com"] } :=
  scan_keeps_errored_group_sections.1 c10Groups "example.com" 0 orchCanonicalOrder
    (List.Perm.refl _) { ip := "", nameservers := ["ns1.example.com"] }
    "DNS resolution failed" rfl

end NsDigUp
